import Mathlib

/-!
Shallow embedding of the shopping-list / calorie calculator of
`personal_chef_app.py` (functions `kcal_for_item` and `compute_rows`,
together with the data classes `Ingredient`, `RecipeItem`, `Recipe`).
Floating-point arithmetic is modelled by exact rational arithmetic.
-/

set_option autoImplicit false

namespace Porpetas

/-- Purchase unit of an ingredient: "kg", "ml" or "un". -/
inductive PurchaseUnit where
  | kg
  | ml
  | un
deriving DecidableEq, Repr

/-- Consumption unit of a recipe line: "g", "ml" or "un". -/
inductive ConsUnit where
  | g
  | ml
  | un
deriving DecidableEq, Repr

/-- The `Ingredient` dataclass. -/
structure Ingredient where
  name : String
  unitPurchase : PurchaseUnit
  rl : ℚ
  price : Option ℚ := none
  kcal_per_100g : Option ℚ := none
  kcal_per_unit : Option ℚ := none
  density_g_per_ml : Option ℚ := none
deriving DecidableEq, Repr

/-- The `RecipeItem` dataclass. -/
structure RecipeItem where
  ingredient : String
  perPersonPL : ℚ
  unit : ConsUnit
  fc : ℚ := 1
  note : String := ""
deriving DecidableEq, Repr

/-- The `Recipe` dataclass. -/
structure Recipe where
  name : String
  items : List RecipeItem
deriving DecidableEq, Repr

/-- `ingredient_map()` builds a dict from name to ingredient; a later catalog
entry with the same name overwrites an earlier one, so lookup returns the
last matching entry. -/
def ingredient_map (catalog : List Ingredient) (n : String) : Option Ingredient :=
  catalog.reverse.find? (fun i => i.name == n)

/-- One entry of the aggregation dict `agg` built in `compute_rows`. -/
structure Group where
  ingrediente : String
  unitCompra : PurchaseUnit
  pl_pessoa : ℚ
  un : ConsUnit
  pessoas : ℕ
  rl : ℚ
  fc : ℚ
  obs : String
deriving DecidableEq, Repr

/-- Python truthiness applied to `it.fc`: `float(it.fc if it.fc else 1.0)`. -/
def fcOr1 (x : ℚ) : ℚ := if x = 0 then 1 else x

/-- The dict entry created in `compute_rows` when `key not in agg`. -/
def mkGroup (catalog : List Ingredient) (people : ℕ) (it : RecipeItem) : Group :=
  let ing := ingredient_map catalog it.ingredient
  { ingrediente := it.ingredient
    unitCompra := match ing with | some i => i.unitPurchase | none => PurchaseUnit.kg
    pl_pessoa := it.perPersonPL
    un := it.unit
    pessoas := people
    rl := match ing with | some i => i.rl | none => 1
    fc := fcOr1 it.fc
    obs := it.note }

/-- The in-place update performed in `compute_rows` when the key is already
present: `PL_pessoa` is incremented, `FC` is overwritten, `Obs` is untouched. -/
def updGroup (it : RecipeItem) (g : Group) : Group :=
  { g with
    pl_pessoa := g.pl_pessoa + it.perPersonPL
    fc := fcOr1 it.fc }

/-- Whether a recipe line hits the aggregation key of an existing group
(the Python dict key is `f"{it.ingredient}__{it.unit}"`). -/
def keyMatch (g : Group) (it : RecipeItem) : Bool :=
  g.ingrediente == it.ingredient && g.un == it.unit

/-- Processing one recipe line against the ordered dict: update the (unique)
matching group in place, or append a fresh group at the end. -/
def addItem (catalog : List Ingredient) (people : ℕ) :
    List Group → RecipeItem → List Group
  | [], it => [mkGroup catalog people it]
  | g :: gs, it =>
      if keyMatch g it then updGroup it g :: gs
      else g :: addItem catalog people gs it

/-- The aggregation loop of `compute_rows` (lines 128-145): fold the recipe
lines into the insertion-ordered dict `agg`. -/
def aggregate (catalog : List Ingredient) (people : ℕ)
    (items : List RecipeItem) : List Group :=
  items.foldl (addItem catalog people) []

/-- `kcal_for_item` (lines 102-120). -/
def kcal_for_item (ing : Ingredient) (cooked_weight_g : ℚ) (unit : ConsUnit) :
    Option ℚ :=
  if unit = ConsUnit.un then
    match ing.kcal_per_unit with
    | none => none
    | some k => some (k * cooked_weight_g)
  else
    match ing.kcal_per_100g with
    | none => none
    | some k =>
        let grams :=
          if unit = ConsUnit.ml then
            cooked_weight_g *
              (match ing.density_g_per_ml with | some d => d | none => 1)
          else cooked_weight_g
        some (k * grams / 100)

/-- One output row of `compute_rows` (the dict appended to `rows`). -/
structure Row where
  ingrediente : String
  unCompra : PurchaseUnit
  pl_pessoa : ℚ
  un : ConsUnit
  pessoas : ℕ
  pl_total : ℚ
  rl : ℚ
  pb_total : ℚ
  purchase_qty : ℚ
  price : Option ℚ
  custo : Option ℚ
  fc : ℚ
  peso_final_pessoa : ℚ
  peso_final_total : ℚ
  kcal_pessoa : Option ℚ
  obs : String
deriving DecidableEq, Repr

/-- The body of the row loop of `compute_rows` (lines 161-222) for one
aggregated group, given the already-determined scale factor. -/
def computeRow (catalog : List Ingredient) (scale : ℚ) (r : Group) : Row :=
  let pl_pessoa_scaled := r.pl_pessoa * scale
  let pl_total := pl_pessoa_scaled * (r.pessoas : ℚ)
  let rl := if 0 < r.rl then r.rl else 1
  let pb_total := pl_total / rl
  let purchase_qty :=
    if r.unitCompra = PurchaseUnit.kg ∧ r.un = ConsUnit.g then pb_total / 1000
    else if r.unitCompra = PurchaseUnit.ml ∧ r.un = ConsUnit.ml then pb_total
    else if r.unitCompra = PurchaseUnit.un ∧ r.un = ConsUnit.un then pb_total
    else pb_total
  let ing := ingredient_map catalog r.ingrediente
  let price := match ing with | some i => i.price | none => none
  let cost := match price with | some p => some (purchase_qty * p) | none => none
  let per_person_cooked := pl_pessoa_scaled * r.fc
  let total_cooked := pl_total * r.fc
  let kcal_this : Option ℚ :=
    match ing with
    | none => none
    | some i => kcal_for_item i per_person_cooked r.un
  { ingrediente := r.ingrediente
    unCompra := r.unitCompra
    pl_pessoa := pl_pessoa_scaled
    un := r.un
    pessoas := r.pessoas
    pl_total := pl_total
    rl := rl
    pb_total := pb_total
    purchase_qty := purchase_qty
    price := price
    custo := cost
    fc := r.fc
    peso_final_pessoa := per_person_cooked
    peso_final_total := total_cooked
    kcal_pessoa := kcal_this
    obs := r.obs }

/-- The loop of lines 148-151: current served weight per person over the
gram/milliliter groups, before rescaling. -/
def served_total_per_person_g (gs : List Group) : ℚ :=
  gs.foldl
    (fun acc r => if r.un ≠ ConsUnit.un then acc + r.pl_pessoa * r.fc else acc) 0

/-- Lines 153-155: the scale factor (`target` truthy, positive, and positive
current served weight). -/
def scaleFor (target : Option ℚ) (served : ℚ) : ℚ :=
  match target with
  | none => 1
  | some t => if t ≠ 0 ∧ 0 < t ∧ 0 < served then t / served else 1

/-- The nutrition summary dict of `compute_rows` (lines 233-244). -/
structure Summary where
  kcal_por_pessoa : ℚ
  peso_servido_por_pessoa_g : ℚ
  kcal_por_grama : ℚ
  kcal_por_200g : ℚ
  kcal_totais_receita : ℚ
deriving DecidableEq, Repr

/-- `compute_rows(recipe, people, target_served_per_person_g)`:
aggregation, scale determination, per-group rows, and the summary. -/
def compute (catalog : List Ingredient) (recipe : Recipe) (people : ℕ)
    (target_served_per_person_g : Option ℚ) : List Row × Summary :=
  let agg := aggregate catalog people recipe.items
  let scale := scaleFor target_served_per_person_g (served_total_per_person_g agg)
  let rows := agg.map (computeRow catalog scale)
  let kcal_person := (rows.filterMap (fun r => r.kcal_pessoa)).sum
  let total_served :=
    ((rows.filter (fun r => decide (r.un ≠ ConsUnit.un))).map
      (fun r => r.peso_final_pessoa)).sum
  let kcal_por_pessoa := if kcal_person ≠ 0 then kcal_person else 0
  let peso := if total_served ≠ 0 then total_served else 0
  let pessoasFromRows : ℕ :=
    match rows.head? with | some r => r.pessoas | none => people
  let summary : Summary :=
    if 0 < peso then
      { kcal_por_pessoa := kcal_por_pessoa
        peso_servido_por_pessoa_g := peso
        kcal_por_grama := kcal_por_pessoa / peso
        kcal_por_200g := kcal_por_pessoa / peso * 200
        kcal_totais_receita := kcal_por_pessoa * (pessoasFromRows : ℚ) }
    else
      { kcal_por_pessoa := kcal_por_pessoa
        peso_servido_por_pessoa_g := peso
        kcal_por_grama := 0
        kcal_por_200g := 0
        kcal_totais_receita := 0 }
  (rows, summary)

/-! ### Specification-side aggregation (for claim C1)

`aggSpec` renders §4.1 step 1 of the specification directly: one group per
distinct (ingredientName, consumptionUnit) pair in first-occurrence order,
net weight summed over the pair's lines; the non-summed fields are read off
the pair's lines as the code actually does it. -/

/-- Whether two recipe lines share the aggregation key
(ingredientName, consumptionUnit). -/
def sameKey (it x : RecipeItem) : Bool :=
  it.ingredient == x.ingredient && it.unit == x.unit

/-- Modelled from the spec (§4.1 step 1), amended by the code's behaviour on
`Obs`: groups appear in first-occurrence order of the key; `pl_pessoa` is the
sum over all lines with the key; `fc` comes from the last such line (a zero
`fc` replaced by 1); `obs` comes from the first such line; catalog-derived
fields come from the (unique) ingredient name of the key. -/
def aggSpec (catalog : List Ingredient) (people : ℕ) (items : List RecipeItem) :
    List Group :=
  match items with
  | [] => []
  | it :: rest =>
      let same := rest.filter (fun x => sameKey it x)
      { ingrediente := it.ingredient
        unitCompra := match ingredient_map catalog it.ingredient with
          | some i => i.unitPurchase
          | none => PurchaseUnit.kg
        pl_pessoa := it.perPersonPL + (same.map (fun x => x.perPersonPL)).sum
        un := it.unit
        pessoas := people
        rl := match ingredient_map catalog it.ingredient with
          | some i => i.rl
          | none => 1
        fc := match same.getLast? with
          | some l => fcOr1 l.fc
          | none => fcOr1 it.fc
        obs := it.note } ::
      aggSpec catalog people (rest.filter (fun x => !sameKey it x))
termination_by items.length
decreasing_by
  simp only [List.length_cons]
  exact Nat.lt_succ_of_le (List.length_filter_le _ _)

/-- Folding `updGroup` over a list of lines, starting from a group. -/
def absorbAll (g : Group) (ls : List RecipeItem) : Group :=
  ls.foldl (fun g it => updGroup it g) g

@[simp] theorem absorbAll_nil (g : Group) : absorbAll g [] = g := rfl

@[simp] theorem absorbAll_cons (g : Group) (it : RecipeItem) (ls : List RecipeItem) :
    absorbAll g (it :: ls) = absorbAll (updGroup it g) ls := rfl

@[simp] theorem keyMatch_updGroup (it : RecipeItem) (g : Group) (x : RecipeItem) :
    keyMatch (updGroup it g) x = keyMatch g x := rfl

@[simp] theorem keyMatch_mkGroup (c : List Ingredient) (p : ℕ)
    (it x : RecipeItem) : keyMatch (mkGroup c p it) x = sameKey it x := rfl

/-- Folding the per-line dict step from a nonempty dict: the head group
absorbs exactly the lines hitting its key; the rest of the dict evolves on
the remaining lines. -/
theorem foldl_addItem_cons (c : List Ingredient) (p : ℕ) :
    ∀ (items : List RecipeItem) (g : Group) (gs : List Group),
    List.foldl (addItem c p) (g :: gs) items
      = absorbAll g (items.filter (fun it => keyMatch g it))
        :: List.foldl (addItem c p) gs (items.filter (fun it => !keyMatch g it)) := by
  intro items
  induction items with
  | nil => intro g gs; simp
  | cons it items ih =>
      intro g gs
      cases hb : keyMatch g it with
      | true =>
          have h1 : List.foldl (addItem c p) (g :: gs) (it :: items)
              = List.foldl (addItem c p) (updGroup it g :: gs) items := by
            simp [addItem, hb]
          rw [h1, ih (updGroup it g) gs]
          simp [List.filter_cons, hb]
      | false =>
          have h1 : List.foldl (addItem c p) (g :: gs) (it :: items)
              = List.foldl (addItem c p) (g :: addItem c p gs it) items := by
            simp [addItem, hb]
          rw [h1, ih g (addItem c p gs it)]
          simp [List.filter_cons, hb]

/-- What absorbing a list of lines does to a group: sum the net weights,
take the last line's cooking factor, leave all other fields alone. -/
theorem absorbAll_eq (ls : List RecipeItem) : ∀ g : Group,
    absorbAll g ls
      = { g with
          pl_pessoa := g.pl_pessoa + (ls.map (fun x => x.perPersonPL)).sum
          fc := match ls.getLast? with
            | some l => fcOr1 l.fc
            | none => g.fc } := by
  induction ls with
  | nil => intro g; simp
  | cons x ls ih =>
      intro g
      rw [absorbAll_cons, ih (updGroup x g)]
      cases ls with
      | nil => simp [updGroup]
      | cons y ls' =>
          simp only [updGroup, add_assoc, List.getLast?_cons_cons]
          cases hl : (y :: ls').getLast? with
          | none =>
              have hs : ((y :: ls').getLast?).isSome = true :=
                List.getLast?_isSome.mpr (by simp)
              rw [hl] at hs
              exact absurd hs (by simp)
          | some l => simp [hl, add_assoc]

/-- The aggregation loop of the code equals the specification-side
aggregation. -/
theorem aggregate_eq_aggSpec (c : List Ingredient) (p : ℕ) :
    ∀ items : List RecipeItem, aggregate c p items = aggSpec c p items := by
  intro items
  induction items using aggSpec.induct c p with
  | case1 => simp [aggregate, aggSpec]
  | case2 it rest ih =>
      show List.foldl (addItem c p) (addItem c p [] it) rest = _
      have h0 : addItem c p [] it = [mkGroup c p it] := rfl
      rw [h0, foldl_addItem_cons c p rest (mkGroup c p it) []]
      rw [aggSpec]
      simp only [keyMatch_mkGroup]
      have htail : List.foldl (addItem c p) []
          (rest.filter (fun x => !sameKey it x))
          = aggSpec c p (rest.filter (fun x => !sameKey it x)) := ih
      rw [htail, absorbAll_eq]
      rfl

/-! ### Projection lemmas for `computeRow` -/

section RowProjections

variable (c : List Ingredient) (s : ℚ) (g : Group)

@[simp] theorem computeRow_ingrediente :
    (computeRow c s g).ingrediente = g.ingrediente := rfl

@[simp] theorem computeRow_unCompra :
    (computeRow c s g).unCompra = g.unitCompra := rfl

@[simp] theorem computeRow_pl_pessoa :
    (computeRow c s g).pl_pessoa = g.pl_pessoa * s := rfl

@[simp] theorem computeRow_un : (computeRow c s g).un = g.un := rfl

@[simp] theorem computeRow_pessoas : (computeRow c s g).pessoas = g.pessoas := rfl

@[simp] theorem computeRow_pl_total :
    (computeRow c s g).pl_total = g.pl_pessoa * s * (g.pessoas : ℚ) := rfl

@[simp] theorem computeRow_rl :
    (computeRow c s g).rl = if 0 < g.rl then g.rl else 1 := rfl

@[simp] theorem computeRow_pb_total :
    (computeRow c s g).pb_total
      = (computeRow c s g).pl_total / (computeRow c s g).rl := rfl

theorem computeRow_purchase_qty :
    (computeRow c s g).purchase_qty
      = (if g.unitCompra = PurchaseUnit.kg ∧ g.un = ConsUnit.g then
            (computeRow c s g).pb_total / 1000
         else if g.unitCompra = PurchaseUnit.ml ∧ g.un = ConsUnit.ml then
            (computeRow c s g).pb_total
         else if g.unitCompra = PurchaseUnit.un ∧ g.un = ConsUnit.un then
            (computeRow c s g).pb_total
         else (computeRow c s g).pb_total) := rfl

theorem computeRow_price :
    (computeRow c s g).price
      = (match ingredient_map c g.ingrediente with
         | some i => i.price
         | none => none) := rfl

theorem computeRow_custo :
    (computeRow c s g).custo
      = (match (computeRow c s g).price with
         | some p => some ((computeRow c s g).purchase_qty * p)
         | none => none) := rfl

@[simp] theorem computeRow_fc : (computeRow c s g).fc = g.fc := rfl

@[simp] theorem computeRow_peso_final_pessoa :
    (computeRow c s g).peso_final_pessoa = g.pl_pessoa * s * g.fc := rfl

@[simp] theorem computeRow_peso_final_total :
    (computeRow c s g).peso_final_total
      = g.pl_pessoa * s * (g.pessoas : ℚ) * g.fc := rfl

theorem computeRow_kcal :
    (computeRow c s g).kcal_pessoa
      = (match ingredient_map c g.ingrediente with
         | none => none
         | some i => kcal_for_item i (g.pl_pessoa * s * g.fc) g.un) := rfl

@[simp] theorem computeRow_obs : (computeRow c s g).obs = g.obs := rfl

end RowProjections

/-! ### Claim theorems -/

/-- C1 (counterexample): the claim says the aggregated group's note takes the
value from the last line encountered for the (ingredientName, consumptionUnit)
pair; on a recipe with two lines for the pair ("x", g) whose notes are
"first" and "second", the single output row carries the note "first", not
"second". -/
theorem C1_counterexample :
    ((compute []
        { name := "r",
          items :=
            [ { ingredient := "x", perPersonPL := 1, unit := ConsUnit.g,
                fc := 1, note := "first" },
              { ingredient := "x", perPersonPL := 2, unit := ConsUnit.g,
                fc := 1, note := "second" } ] }
        1 none).1.map (fun r => r.obs)) = ["first"]
    ∧ ("first" : String) ≠ "second" := by
  constructor
  · rfl
  · decide

/-- C1 (amended): recipe lines sharing the same (ingredientName,
consumptionUnit) pair are aggregated into one group, in first-occurrence
order of the pair, with `netWeightPerPerson` summed; `cookingFactor` takes
the value from the last line encountered for the pair (a falsy/zero value
replaced by 1.0), while `note` takes the value from the first line
encountered; and the output rows are these groups, in that order, passed
through the per-group computation. -/
theorem C1_aggregation_amended (c : List Ingredient) (rec : Recipe) (p : ℕ)
    (tgt : Option ℚ) :
    aggregate c p rec.items = aggSpec c p rec.items
    ∧ (compute c rec p tgt).1
        = (aggSpec c p rec.items).map
            (computeRow c
              (scaleFor tgt
                (served_total_per_person_g (aggSpec c p rec.items)))) := by
  have h := aggregate_eq_aggSpec c p rec.items
  refine ⟨h, ?_⟩
  show (aggregate c p rec.items).map
      (computeRow c
        (scaleFor tgt (served_total_per_person_g (aggregate c p rec.items))))
      = _
  rw [h]

/-- The served-weight accumulation loop is the sum of `pl_pessoa * fc` over
the gram/milliliter groups. -/
theorem served_total_eq_sum (gs : List Group) :
    served_total_per_person_g gs
      = (((gs.filter (fun g => decide (g.un ≠ ConsUnit.un)))).map
          (fun g => g.pl_pessoa * g.fc)).sum := by
  suffices h : ∀ a : ℚ,
      gs.foldl
        (fun acc r =>
          if r.un ≠ ConsUnit.un then acc + r.pl_pessoa * r.fc else acc) a
        = a + (((gs.filter (fun g => decide (g.un ≠ ConsUnit.un)))).map
            (fun g => g.pl_pessoa * g.fc)).sum by
    simpa [served_total_per_person_g] using h 0
  induction gs with
  | nil => intro a; simp
  | cons g gs ih =>
      intro a
      rw [List.foldl_cons]
      by_cases hg : g.un = ConsUnit.un
      · rw [if_neg (not_not_intro hg), ih a, List.filter_cons]
        simp [hg]
      · rw [if_pos hg, ih (a + g.pl_pessoa * g.fc), List.filter_cons]
        simp [hg, add_assoc]

/-- C2: the scale factor is `target / currentServedPerPerson` exactly when the
target is supplied, positive, and the current served weight per person over
the gram/milliliter groups is positive, and 1 otherwise; and it multiplies
every group's net weight per person, unit-counted groups included. -/
theorem C2_scale_factor (c : List Ingredient) (rec : Recipe) (p : ℕ)
    (tgt : Option ℚ) :
    served_total_per_person_g (aggregate c p rec.items)
      = (((aggregate c p rec.items).filter
            (fun g => decide (g.un ≠ ConsUnit.un))).map
          (fun g => g.pl_pessoa * g.fc)).sum
    ∧ scaleFor tgt (served_total_per_person_g (aggregate c p rec.items))
        = (match tgt with
           | none => 1
           | some t =>
               if 0 < t ∧ 0 < served_total_per_person_g (aggregate c p rec.items)
               then t / served_total_per_person_g (aggregate c p rec.items)
               else 1)
    ∧ ((compute c rec p tgt).1).map (fun r => r.pl_pessoa)
        = (aggregate c p rec.items).map
            (fun g => g.pl_pessoa *
              scaleFor tgt
                (served_total_per_person_g (aggregate c p rec.items))) := by
  refine ⟨served_total_eq_sum _, ?_, ?_⟩
  · cases tgt with
    | none => rfl
    | some t =>
        show (if t ≠ 0 ∧ 0 < t ∧ 0 < served_total_per_person_g (aggregate c p rec.items)
              then t / served_total_per_person_g (aggregate c p rec.items) else 1)
            = (if 0 < t ∧ 0 < served_total_per_person_g (aggregate c p rec.items)
               then t / served_total_per_person_g (aggregate c p rec.items) else 1)
        by_cases h1 : 0 < t ∧ 0 < served_total_per_person_g (aggregate c p rec.items)
        · rw [if_pos ⟨ne_of_gt h1.1, h1⟩, if_pos h1]
        · rw [if_neg (fun hc => h1 hc.2), if_neg h1]
  · show ((aggregate c p rec.items).map
        (computeRow c
          (scaleFor tgt
            (served_total_per_person_g (aggregate c p rec.items))))).map
        (fun r => r.pl_pessoa) = _
    rw [List.map_map]
    rfl

/-- C10: on a recipe with an empty item list the computation returns no rows
and a summary whose five fields are all zero. -/
theorem C10_empty_recipe (c : List Ingredient) (p : ℕ) (tgt : Option ℚ)
    (nm : String) :
    compute c { name := nm, items := [] } p tgt
      = ([], { kcal_por_pessoa := 0
               peso_servido_por_pessoa_g := 0
               kcal_por_grama := 0
               kcal_por_200g := 0
               kcal_totais_receita := 0 }) := by
  rfl

/-- C3: for every aggregated group, `purchaseQuantity` is
`grossWeightTotal / 1000` when the purchase unit is kg and the consumption
unit is gram, and `grossWeightTotal` unchanged for every other
purchase/consumption unit combination, where
`grossWeightTotal = netWeightTotal / effectiveYield`. -/
theorem C3_purchase_quantity (c : List Ingredient) (s : ℚ) (g : Group) :
    (computeRow c s g).pb_total
      = (computeRow c s g).pl_total / (if 0 < g.rl then g.rl else 1)
    ∧ (g.unitCompra = PurchaseUnit.kg ∧ g.un = ConsUnit.g
        → (computeRow c s g).purchase_qty = (computeRow c s g).pb_total / 1000)
    ∧ (¬(g.unitCompra = PurchaseUnit.kg ∧ g.un = ConsUnit.g)
        → (computeRow c s g).purchase_qty = (computeRow c s g).pb_total) := by
  refine ⟨rfl, ?_, ?_⟩
  · intro h
    rw [computeRow_purchase_qty, if_pos h]
  · intro h
    rw [computeRow_purchase_qty, if_neg h]
    split_ifs <;> rfl

/-- Witness for C3 at two concrete groups, one bought in kg and consumed in
grams, one bought and consumed by unit. -/
theorem C3_purchase_quantity_witness :
    ((computeRow [] 1
        { ingrediente := "x", unitCompra := PurchaseUnit.kg, pl_pessoa := 100,
          un := ConsUnit.g, pessoas := 2, rl := 1, fc := 1, obs := "" }).purchase_qty
      = (computeRow [] 1
        { ingrediente := "x", unitCompra := PurchaseUnit.kg, pl_pessoa := 100,
          un := ConsUnit.g, pessoas := 2, rl := 1, fc := 1, obs := "" }).pb_total / 1000)
    ∧ ((computeRow [] 1
        { ingrediente := "y", unitCompra := PurchaseUnit.un, pl_pessoa := 2,
          un := ConsUnit.un, pessoas := 2, rl := 1, fc := 1, obs := "" }).purchase_qty
      = (computeRow [] 1
        { ingrediente := "y", unitCompra := PurchaseUnit.un, pl_pessoa := 2,
          un := ConsUnit.un, pessoas := 2, rl := 1, fc := 1, obs := "" }).pb_total) := by
  constructor
  · exact (C3_purchase_quantity [] 1
      { ingrediente := "x", unitCompra := PurchaseUnit.kg, pl_pessoa := 100,
        un := ConsUnit.g, pessoas := 2, rl := 1, fc := 1, obs := "" }).2.1
      ⟨rfl, rfl⟩
  · exact (C3_purchase_quantity [] 1
      { ingrediente := "y", unitCompra := PurchaseUnit.un, pl_pessoa := 2,
        un := ConsUnit.un, pessoas := 2, rl := 1, fc := 1, obs := "" }).2.2
      (by decide)

/-- C7: the cost of a row is null exactly when the looked-up price is null
(which includes the ingredient missing from the catalog), and when the price
is known the cost is `purchaseQuantity × pricePerPurchaseUnit`. -/
theorem C7_cost_iff_price (c : List Ingredient) (s : ℚ) (g : Group) :
    (computeRow c s g).price
      = (ingredient_map c g.ingrediente).bind (fun i => i.price)
    ∧ ((computeRow c s g).custo = none ↔ (computeRow c s g).price = none)
    ∧ ∀ pr : ℚ, (computeRow c s g).price = some pr
        → (computeRow c s g).custo
            = some ((computeRow c s g).purchase_qty * pr) := by
  refine ⟨?_, ?_, ?_⟩
  · cases hi : ingredient_map c g.ingrediente <;>
      simp [computeRow_price, hi]
  · cases hp : (computeRow c s g).price <;>
      simp [computeRow_custo, hp]
  · intro pr hp
    simp [computeRow_custo, hp]

/-- Witness for C7: a priced catalog ingredient yields
`cost = purchaseQuantity × price`. -/
theorem C7_cost_iff_price_witness :
    (computeRow
        [{ name := "x", unitPurchase := PurchaseUnit.kg, rl := 1,
           price := some 10 }] 1
        { ingrediente := "x", unitCompra := PurchaseUnit.kg, pl_pessoa := 100,
          un := ConsUnit.g, pessoas := 2, rl := 1, fc := 1, obs := "" }).custo
      = some ((computeRow
        [{ name := "x", unitPurchase := PurchaseUnit.kg, rl := 1,
           price := some 10 }] 1
        { ingrediente := "x", unitCompra := PurchaseUnit.kg, pl_pessoa := 100,
          un := ConsUnit.g, pessoas := 2, rl := 1, fc := 1, obs := "" }).purchase_qty * 10) :=
  (C7_cost_iff_price
      [{ name := "x", unitPurchase := PurchaseUnit.kg, rl := 1,
         price := some 10 }] 1
      { ingrediente := "x", unitCompra := PurchaseUnit.kg, pl_pessoa := 100,
        un := ConsUnit.g, pessoas := 2, rl := 1, fc := 1, obs := "" }).2.2
    10 rfl

/-- C5: per-group calories per person: `caloriesPerUnit × servedWeightPerPerson`
for unit-counted groups, `caloriesPer100g × grams / 100` for gram/milliliter
groups (milliliters converted to grams via the density, defaulting to 1.0),
undefined when the needed field is absent or the ingredient is not in the
catalog. -/
theorem C5_calories (c : List Ingredient) (s : ℚ) (g : Group) :
    (ingredient_map c g.ingrediente = none
        → (computeRow c s g).kcal_pessoa = none)
    ∧ ∀ i : Ingredient, ingredient_map c g.ingrediente = some i →
        ((g.un = ConsUnit.un →
            (computeRow c s g).kcal_pessoa
              = i.kcal_per_unit.map
                  (fun k => k * (computeRow c s g).peso_final_pessoa))
        ∧ (g.un = ConsUnit.g →
            (computeRow c s g).kcal_pessoa
              = i.kcal_per_100g.map
                  (fun k => k * (computeRow c s g).peso_final_pessoa / 100))
        ∧ (g.un = ConsUnit.ml →
            (computeRow c s g).kcal_pessoa
              = i.kcal_per_100g.map
                  (fun k => k * ((computeRow c s g).peso_final_pessoa
                      * (i.density_g_per_ml.getD 1)) / 100))) := by
  constructor
  · intro h
    simp [computeRow_kcal, h]
  · intro i hi
    refine ⟨?_, ?_, ?_⟩ <;> intro hu
    · cases hk : i.kcal_per_unit <;>
        simp [computeRow_kcal, hi, hu, kcal_for_item, hk]
    · cases hk : i.kcal_per_100g <;>
        simp [computeRow_kcal, hi, hu, kcal_for_item, hk]
    · cases hk : i.kcal_per_100g <;>
        cases hd : i.density_g_per_ml <;>
          simp [computeRow_kcal, hi, hu, kcal_for_item, hk, hd]

/-- Witness for C5: one unit-counted egg at 68 kcal per unit gives 68 kcal,
and a missing ingredient gives no calories. -/
theorem C5_calories_witness :
    (computeRow
        [{ name := "Ovo", unitPurchase := PurchaseUnit.un, rl := 1,
           kcal_per_unit := some 68 }] 1
        { ingrediente := "Ovo", unitCompra := PurchaseUnit.un, pl_pessoa := 1,
          un := ConsUnit.un, pessoas := 1, rl := 1, fc := 1, obs := "" }).kcal_pessoa
      = some 68
    ∧ (computeRow [] 1
        { ingrediente := "Ovo", unitCompra := PurchaseUnit.kg, pl_pessoa := 1,
          un := ConsUnit.un, pessoas := 1, rl := 1, fc := 1, obs := "" }).kcal_pessoa
      = none := by
  constructor
  · have h := ((C5_calories
        [{ name := "Ovo", unitPurchase := PurchaseUnit.un, rl := 1,
           kcal_per_unit := some 68 }] 1
        { ingrediente := "Ovo", unitCompra := PurchaseUnit.un, pl_pessoa := 1,
          un := ConsUnit.un, pessoas := 1, rl := 1, fc := 1, obs := "" }).2
        { name := "Ovo", unitPurchase := PurchaseUnit.un, rl := 1,
          kcal_per_unit := some 68 } rfl).1 rfl
    rw [h]
    norm_num
  · exact (C5_calories [] 1
      { ingrediente := "Ovo", unitCompra := PurchaseUnit.kg, pl_pessoa := 1,
        un := ConsUnit.un, pessoas := 1, rl := 1, fc := 1, obs := "" }).1 rfl

/-! ### Summary machinery -/

/-- Python's `float(x) if x else 0.0` is the identity on numbers. -/
theorem truthy_id (a : ℚ) : (if a ≠ 0 then a else 0) = a := by
  by_cases h : a = 0 <;> simp [h]

/-- Every group of the specification-side aggregation carries the person
count. -/
theorem aggSpec_pessoas (c : List Ingredient) (p : ℕ) :
    ∀ items : List RecipeItem, ∀ g ∈ aggSpec c p items, g.pessoas = p := by
  intro items
  induction items using aggSpec.induct c p with
  | case1 =>
      intro g hg
      rw [aggSpec] at hg
      cases hg
  | case2 it rest ih =>
      intro g hg
      rw [aggSpec] at hg
      rcases List.mem_cons.mp hg with h | h
      · subst h; rfl
      · exact ih g h

/-- Every group produced by the aggregation loop carries the person count. -/
theorem aggregate_pessoas (c : List Ingredient) (p : ℕ)
    (items : List RecipeItem) : ∀ g ∈ aggregate c p items, g.pessoas = p := by
  rw [aggregate_eq_aggSpec]
  exact aggSpec_pessoas c p items

/-- The rows returned by `compute_rows`. -/
def rowsOf (c : List Ingredient) (rec : Recipe) (p : ℕ) (tgt : Option ℚ) :
    List Row :=
  (compute c rec p tgt).1

/-- The `kcal_person` accumulator of `compute_rows`. -/
def kcalSum (c : List Ingredient) (rec : Recipe) (p : ℕ) (tgt : Option ℚ) : ℚ :=
  ((rowsOf c rec p tgt).filterMap (fun r => r.kcal_pessoa)).sum

/-- The `total_served_weight_per_person` accumulator of `compute_rows`. -/
def pesoSum (c : List Ingredient) (rec : Recipe) (p : ℕ) (tgt : Option ℚ) : ℚ :=
  (((rowsOf c rec p tgt).filter (fun r => decide (r.un ≠ ConsUnit.un))).map
    (fun r => r.peso_final_pessoa)).sum

theorem compute_fst (c : List Ingredient) (rec : Recipe) (p : ℕ)
    (tgt : Option ℚ) :
    (compute c rec p tgt).1
      = (aggregate c p rec.items).map
          (computeRow c
            (scaleFor tgt
              (served_total_per_person_g (aggregate c p rec.items)))) := rfl

/-- The person count read back from the first output row is the person count
passed in. -/
theorem rowsOf_head_pessoas (c : List Ingredient) (rec : Recipe) (p : ℕ)
    (tgt : Option ℚ) :
    (match (rowsOf c rec p tgt).head? with
     | some r => r.pessoas
     | none => p) = p := by
  have hr : rowsOf c rec p tgt
      = (aggregate c p rec.items).map
          (computeRow c
            (scaleFor tgt
              (served_total_per_person_g (aggregate c p rec.items)))) := rfl
  rw [hr]
  cases hgs : aggregate c p rec.items with
  | nil => rfl
  | cons g0 gs' =>
      have hp : g0.pessoas = p :=
        aggregate_pessoas c p rec.items g0
          (by rw [hgs]; exact List.mem_cons_self g0 gs')
      simp [hp]

/-- The summary of `compute_rows`, with the truthiness no-ops removed and
the person count read back from the rows replaced by the person count. -/
theorem compute_snd_eq (c : List Ingredient) (rec : Recipe) (p : ℕ)
    (tgt : Option ℚ) :
    (compute c rec p tgt).2
      = if 0 < pesoSum c rec p tgt then
          { kcal_por_pessoa := kcalSum c rec p tgt
            peso_servido_por_pessoa_g := pesoSum c rec p tgt
            kcal_por_grama := kcalSum c rec p tgt / pesoSum c rec p tgt
            kcal_por_200g := kcalSum c rec p tgt / pesoSum c rec p tgt * 200
            kcal_totais_receita := kcalSum c rec p tgt * (p : ℚ) }
        else
          { kcal_por_pessoa := kcalSum c rec p tgt
            peso_servido_por_pessoa_g := pesoSum c rec p tgt
            kcal_por_grama := 0
            kcal_por_200g := 0
            kcal_totais_receita := 0 } := by
  have h1 : (compute c rec p tgt).2
      = if 0 < (if pesoSum c rec p tgt ≠ 0 then pesoSum c rec p tgt else 0) then
          { kcal_por_pessoa :=
              if kcalSum c rec p tgt ≠ 0 then kcalSum c rec p tgt else 0
            peso_servido_por_pessoa_g :=
              if pesoSum c rec p tgt ≠ 0 then pesoSum c rec p tgt else 0
            kcal_por_grama :=
              (if kcalSum c rec p tgt ≠ 0 then kcalSum c rec p tgt else 0)
                / (if pesoSum c rec p tgt ≠ 0 then pesoSum c rec p tgt else 0)
            kcal_por_200g :=
              (if kcalSum c rec p tgt ≠ 0 then kcalSum c rec p tgt else 0)
                / (if pesoSum c rec p tgt ≠ 0 then pesoSum c rec p tgt else 0)
                * 200
            kcal_totais_receita :=
              (if kcalSum c rec p tgt ≠ 0 then kcalSum c rec p tgt else 0)
                * ((match (rowsOf c rec p tgt).head? with
                    | some r => r.pessoas
                    | none => p : ℕ) : ℚ) }
        else
          { kcal_por_pessoa :=
              if kcalSum c rec p tgt ≠ 0 then kcalSum c rec p tgt else 0
            peso_servido_por_pessoa_g :=
              if pesoSum c rec p tgt ≠ 0 then pesoSum c rec p tgt else 0
            kcal_por_grama := 0
            kcal_por_200g := 0
            kcal_totais_receita := 0 } := rfl
  rw [h1, rowsOf_head_pessoas]
  simp only [truthy_id]

/-- The summary's served weight per person is the served-weight accumulator. -/
theorem compute_peso (c : List Ingredient) (rec : Recipe) (p : ℕ)
    (tgt : Option ℚ) :
    (compute c rec p tgt).2.peso_servido_por_pessoa_g = pesoSum c rec p tgt := by
  rw [compute_snd_eq]
  split <;> rfl

/-- The summary's calories per person is the calorie accumulator. -/
theorem compute_kcal (c : List Ingredient) (rec : Recipe) (p : ℕ)
    (tgt : Option ℚ) :
    (compute c rec p tgt).2.kcal_por_pessoa = kcalSum c rec p tgt := by
  rw [compute_snd_eq]
  split <;> rfl

/-- C6: no division in the computation has a zero divisor: each group's gross
weight divides by the guarded yield (strictly positive, equal to the yield
ratio when that is positive and to 1.0 otherwise), and the summary ratios are
computed by division only when the served weight total is positive and are
0.0 otherwise. -/
theorem C6_division_guards (c : List Ingredient) (rec : Recipe) (p : ℕ)
    (tgt : Option ℚ) :
    (∀ g ∈ aggregate c p rec.items,
        (computeRow c
            (scaleFor tgt (served_total_per_person_g (aggregate c p rec.items)))
            g).rl
          = (if 0 < g.rl then g.rl else 1)
        ∧ 0 < (computeRow c
            (scaleFor tgt (served_total_per_person_g (aggregate c p rec.items)))
            g).rl
        ∧ (computeRow c
            (scaleFor tgt (served_total_per_person_g (aggregate c p rec.items)))
            g).pb_total
          = (computeRow c
              (scaleFor tgt (served_total_per_person_g (aggregate c p rec.items)))
              g).pl_total
            / (computeRow c
                (scaleFor tgt (served_total_per_person_g (aggregate c p rec.items)))
                g).rl)
    ∧ (0 < (compute c rec p tgt).2.peso_servido_por_pessoa_g →
        (compute c rec p tgt).2.kcal_por_grama
          = (compute c rec p tgt).2.kcal_por_pessoa
            / (compute c rec p tgt).2.peso_servido_por_pessoa_g
        ∧ (compute c rec p tgt).2.kcal_por_200g
          = (compute c rec p tgt).2.kcal_por_grama * 200
        ∧ (compute c rec p tgt).2.kcal_totais_receita
          = (compute c rec p tgt).2.kcal_por_pessoa * (p : ℚ))
    ∧ (¬ 0 < (compute c rec p tgt).2.peso_servido_por_pessoa_g →
        (compute c rec p tgt).2.kcal_por_grama = 0
        ∧ (compute c rec p tgt).2.kcal_por_200g = 0
        ∧ (compute c rec p tgt).2.kcal_totais_receita = 0) := by
  refine ⟨?_, ?_, ?_⟩
  · intro g _
    refine ⟨rfl, ?_, rfl⟩
    rw [computeRow_rl]
    split_ifs with h
    · exact h
    · exact one_pos
  · intro h
    rw [compute_peso] at h
    simp [compute_snd_eq, h]
  · intro h
    rw [compute_peso] at h
    simp [compute_snd_eq, h]

/-- Witness for C6 on a one-line recipe: the guarded divisor is positive and
the summary ratio is a true division. -/
theorem C6_division_guards_witness :
    (0 < (computeRow []
        (scaleFor none
          (served_total_per_person_g
            (aggregate [] 1
              [{ ingredient := "x", perPersonPL := 100, unit := ConsUnit.g,
                 fc := 1, note := "" }])))
        { ingrediente := "x", unitCompra := PurchaseUnit.kg, pl_pessoa := 100,
          un := ConsUnit.g, pessoas := 1, rl := 1, fc := 1, obs := "" }).rl)
    ∧ ((compute []
          { name := "r",
            items := [{ ingredient := "x", perPersonPL := 100,
                        unit := ConsUnit.g, fc := 1, note := "" }] }
          1 none).2.kcal_por_grama
        = (compute []
            { name := "r",
              items := [{ ingredient := "x", perPersonPL := 100,
                          unit := ConsUnit.g, fc := 1, note := "" }] }
            1 none).2.kcal_por_pessoa
          / (compute []
              { name := "r",
                items := [{ ingredient := "x", perPersonPL := 100,
                            unit := ConsUnit.g, fc := 1, note := "" }] }
              1 none).2.peso_servido_por_pessoa_g) := by
  have h := C6_division_guards []
    { name := "r",
      items := [{ ingredient := "x", perPersonPL := 100, unit := ConsUnit.g,
                  fc := 1, note := "" }] }
    1 none
  have hpos : 0 < (compute []
      { name := "r",
        items := [{ ingredient := "x", perPersonPL := 100, unit := ConsUnit.g,
                    fc := 1, note := "" }] }
      1 none).2.peso_servido_por_pessoa_g := by
    rw [compute_peso]
    norm_num [pesoSum, rowsOf, compute_fst, aggregate, addItem, mkGroup,
      fcOr1, scaleFor, served_total_per_person_g, ingredient_map,
      List.filter_cons,
      (show ConsUnit.g ≠ ConsUnit.un from fun hc => by cases hc)]
  exact ⟨(h.1 _ (by decide)).2.1, (h.2.1 hpos).1⟩

/-- Every recipe line's key reaches a group of the specification-side
aggregation, with that group's catalog-derived fields looked up under the
line's ingredient name. -/
theorem aggSpec_mem_of_item (c : List Ingredient) (p : ℕ) :
    ∀ items : List RecipeItem, ∀ it ∈ items,
      ∃ g ∈ aggSpec c p items,
        g.ingrediente = it.ingredient ∧ g.un = it.unit
        ∧ g.unitCompra
            = (match ingredient_map c it.ingredient with
               | some i => i.unitPurchase
               | none => PurchaseUnit.kg)
        ∧ g.rl
            = (match ingredient_map c it.ingredient with
               | some i => i.rl
               | none => 1) := by
  intro items
  induction items using aggSpec.induct c p with
  | case1 => intro it hit; cases hit
  | case2 x rest ih =>
      intro it hit
      rw [aggSpec]
      rcases List.mem_cons.mp hit with h | h
      · subst h
        exact ⟨_, List.mem_cons_self _ _, rfl, rfl, rfl, rfl⟩
      · by_cases hk : sameKey x it = true
        · have hk1 : x.ingredient = it.ingredient ∧ x.unit = it.unit := by
            simpa [sameKey, Bool.and_eq_true, beq_iff_eq] using hk
          refine ⟨_, List.mem_cons_self _ _, hk1.1, hk1.2, ?_, ?_⟩
          · rw [← hk1.1]
          · rw [← hk1.1]
        · have hfalse : sameKey x it = false := by
            cases hsk : sameKey x it
            · rfl
            · exact absurd hsk hk
          have hmem : it ∈ rest.filter (fun y => !sameKey x y) :=
            List.mem_filter.mpr ⟨h, by simp [hfalse]⟩
          rcases ih it hmem with ⟨g, hg, hprops⟩
          exact ⟨g, List.mem_cons_of_mem _ hg, hprops⟩

/-- C4: a recipe line whose ingredient is not in the catalog still yields an
output row for its group, with yield ratio defaulted to 1, purchase unit
defaulted to kg, and null price, cost and calories. -/
theorem C4_missing_ingredient (c : List Ingredient) (rec : Recipe) (p : ℕ)
    (tgt : Option ℚ) (it : RecipeItem)
    (h1 : it ∈ rec.items) (h2 : ingredient_map c it.ingredient = none) :
    ∃ r ∈ (compute c rec p tgt).1,
      r.ingrediente = it.ingredient ∧ r.un = it.unit
      ∧ r.unCompra = PurchaseUnit.kg ∧ r.rl = 1
      ∧ r.price = none ∧ r.custo = none ∧ r.kcal_pessoa = none := by
  rcases aggSpec_mem_of_item c p rec.items it h1 with
    ⟨g, hg, hing, hun, hcompra, hrl⟩
  rw [h2] at hcompra hrl
  have hg' : g ∈ aggregate c p rec.items := by
    rw [aggregate_eq_aggSpec]; exact hg
  have hmap : ingredient_map c g.ingrediente = none := by
    rw [hing, h2]
  refine ⟨computeRow c
      (scaleFor tgt (served_total_per_person_g (aggregate c p rec.items))) g,
    ?_, ?_, ?_, ?_, ?_, ?_, ?_, ?_⟩
  · rw [compute_fst]
    exact List.mem_map_of_mem _ hg'
  · simpa using hing
  · simpa using hun
  · simpa using hcompra
  · rw [computeRow_rl, hrl]
    norm_num
  · simp [computeRow_price, hmap]
  · simp [computeRow_custo, computeRow_price, hmap]
  · simp [computeRow_kcal, hmap]

/-- Witness for C4: a one-line recipe over an empty catalog. -/
theorem C4_missing_ingredient_witness :
    ∃ r ∈ (compute []
        { name := "r",
          items := [{ ingredient := "x", perPersonPL := 100,
                      unit := ConsUnit.g, fc := 1, note := "" }] }
        3 none).1,
      r.ingrediente = "x" ∧ r.un = ConsUnit.g
      ∧ r.unCompra = PurchaseUnit.kg ∧ r.rl = 1
      ∧ r.price = none ∧ r.custo = none ∧ r.kcal_pessoa = none :=
  C4_missing_ingredient []
    { name := "r",
      items := [{ ingredient := "x", perPersonPL := 100, unit := ConsUnit.g,
                  fc := 1, note := "" }] }
    3 none
    { ingredient := "x", perPersonPL := 100, unit := ConsUnit.g,
      fc := 1, note := "" }
    (List.mem_cons_self _ _) rfl

/-- Pulling a common factor out of a mapped sum. -/
theorem sum_map_mul_left {α : Type} (l : List α) (f : α → ℚ) (s : ℚ) :
    (l.map (fun x => s * f x)).sum = s * (l.map f).sum := by
  induction l with
  | nil => simp
  | cons x l ih => simp [ih, mul_add]

/-- C9: when a positive target portion is supplied and the pre-scaling served
weight per person is positive, the summary's served weight per person equals
the target exactly. -/
theorem C9_target_attained (c : List Ingredient) (rec : Recipe) (p : ℕ)
    (t : ℚ) (ht : 0 < t)
    (hcur : 0 < served_total_per_person_g (aggregate c p rec.items)) :
    (compute c rec p (some t)).2.peso_servido_por_pessoa_g = t := by
  have hS : served_total_per_person_g (aggregate c p rec.items) ≠ 0 :=
    ne_of_gt hcur
  have hs : scaleFor (some t)
      (served_total_per_person_g (aggregate c p rec.items))
      = t / served_total_per_person_g (aggregate c p rec.items) := by
    show (if t ≠ 0 ∧ 0 < t
            ∧ 0 < served_total_per_person_g (aggregate c p rec.items)
          then t / served_total_per_person_g (aggregate c p rec.items)
          else 1) = _
    rw [if_pos ⟨ne_of_gt ht, ht, hcur⟩]
  have hp : pesoSum c rec p (some t)
      = scaleFor (some t)
          (served_total_per_person_g (aggregate c p rec.items))
        * served_total_per_person_g (aggregate c p rec.items) := by
    have hr : rowsOf c rec p (some t)
        = (aggregate c p rec.items).map
            (computeRow c
              (scaleFor (some t)
                (served_total_per_person_g (aggregate c p rec.items)))) := rfl
    show (((rowsOf c rec p (some t)).filter
        (fun r => decide (r.un ≠ ConsUnit.un))).map
          (fun r => r.peso_final_pessoa)).sum = _
    rw [hr, List.filter_map, List.map_map]
    have hcomp : ((fun r : Row => r.peso_final_pessoa) ∘
        computeRow c
          (scaleFor (some t)
            (served_total_per_person_g (aggregate c p rec.items))))
        = fun g : Group =>
            scaleFor (some t)
              (served_total_per_person_g (aggregate c p rec.items))
            * (g.pl_pessoa * g.fc) := by
      funext g
      show g.pl_pessoa * _ * g.fc = _
      ring
    rw [hcomp, served_total_eq_sum]
    exact sum_map_mul_left _ _ _
  rw [compute_peso, hp, hs, div_mul_cancel₀ t hS]

/-- Witness for C9: a one-line 100 g recipe with target 200 g serves exactly
200 g per person. -/
theorem C9_target_attained_witness :
    (compute []
        { name := "r",
          items := [{ ingredient := "x", perPersonPL := 100,
                      unit := ConsUnit.g, fc := 1, note := "" }] }
        1 (some 200)).2.peso_servido_por_pessoa_g = 200 := by
  apply C9_target_attained
  · norm_num
  · norm_num [aggregate, addItem, mkGroup, fcOr1,
      served_total_per_person_g, ingredient_map,
      (show ConsUnit.g ≠ ConsUnit.un from fun hc => by cases hc)]

/-! ### Linearity in the person count (claim C8) -/

/-- Replace a group's person count. -/
def setPessoas (n : ℕ) (g : Group) : Group := { g with pessoas := n }

@[simp] theorem setPessoas_ingrediente (n : ℕ) (g : Group) :
    (setPessoas n g).ingrediente = g.ingrediente := rfl

@[simp] theorem setPessoas_unitCompra (n : ℕ) (g : Group) :
    (setPessoas n g).unitCompra = g.unitCompra := rfl

@[simp] theorem setPessoas_pl_pessoa (n : ℕ) (g : Group) :
    (setPessoas n g).pl_pessoa = g.pl_pessoa := rfl

@[simp] theorem setPessoas_un (n : ℕ) (g : Group) :
    (setPessoas n g).un = g.un := rfl

@[simp] theorem setPessoas_pessoas (n : ℕ) (g : Group) :
    (setPessoas n g).pessoas = n := rfl

@[simp] theorem setPessoas_rl (n : ℕ) (g : Group) :
    (setPessoas n g).rl = g.rl := rfl

@[simp] theorem setPessoas_fc (n : ℕ) (g : Group) :
    (setPessoas n g).fc = g.fc := rfl

@[simp] theorem setPessoas_obs (n : ℕ) (g : Group) :
    (setPessoas n g).obs = g.obs := rfl

/-- The person count only enters each group through its `pessoas` field. -/
theorem aggSpec_people (c : List Ingredient) (p n : ℕ) :
    ∀ items : List RecipeItem,
      aggSpec c n items = (aggSpec c p items).map (setPessoas n) := by
  intro items
  induction items using aggSpec.induct c p with
  | case1 => simp [aggSpec]
  | case2 it rest ih =>
      simp only [aggSpec, List.map_cons]
      refine List.cons_eq_cons.mpr ⟨rfl, ih⟩

/-- Same fact for the aggregation loop. -/
theorem aggregate_people (c : List Ingredient) (p n : ℕ)
    (items : List RecipeItem) :
    aggregate c n items = (aggregate c p items).map (setPessoas n) := by
  rw [aggregate_eq_aggSpec c n items, aggregate_eq_aggSpec c p items]
  exact aggSpec_people c p n items

/-- The current served weight per person does not depend on the person
count. -/
theorem served_total_setPessoas (n : ℕ) (gs : List Group) :
    served_total_per_person_g (gs.map (setPessoas n))
      = served_total_per_person_g gs := by
  rw [served_total_eq_sum, served_total_eq_sum, List.filter_map, List.map_map]
  rfl

/-- C8: doubling the person count doubles every total output field (net
weight total, gross weight total, purchase quantity, cost, served weight
total, total recipe calories) and leaves every per-person field (scaled net
weight per person, served weight per person, per-group calories, and the
per-person summary fields) unchanged. -/
theorem C8_linearity (c : List Ingredient) (rec : Recipe) (p : ℕ)
    (tgt : Option ℚ) :
    ((compute c rec (2 * p) tgt).1.map (fun r => r.pl_total)
        = (compute c rec p tgt).1.map (fun r => 2 * r.pl_total))
    ∧ ((compute c rec (2 * p) tgt).1.map (fun r => r.pb_total)
        = (compute c rec p tgt).1.map (fun r => 2 * r.pb_total))
    ∧ ((compute c rec (2 * p) tgt).1.map (fun r => r.purchase_qty)
        = (compute c rec p tgt).1.map (fun r => 2 * r.purchase_qty))
    ∧ ((compute c rec (2 * p) tgt).1.map (fun r => r.custo)
        = (compute c rec p tgt).1.map (fun r => r.custo.map (fun x => 2 * x)))
    ∧ ((compute c rec (2 * p) tgt).1.map (fun r => r.peso_final_total)
        = (compute c rec p tgt).1.map (fun r => 2 * r.peso_final_total))
    ∧ ((compute c rec (2 * p) tgt).2.kcal_totais_receita
        = 2 * (compute c rec p tgt).2.kcal_totais_receita)
    ∧ ((compute c rec (2 * p) tgt).1.map (fun r => r.pl_pessoa)
        = (compute c rec p tgt).1.map (fun r => r.pl_pessoa))
    ∧ ((compute c rec (2 * p) tgt).1.map (fun r => r.peso_final_pessoa)
        = (compute c rec p tgt).1.map (fun r => r.peso_final_pessoa))
    ∧ ((compute c rec (2 * p) tgt).1.map (fun r => r.kcal_pessoa)
        = (compute c rec p tgt).1.map (fun r => r.kcal_pessoa))
    ∧ ((compute c rec (2 * p) tgt).2.kcal_por_pessoa
        = (compute c rec p tgt).2.kcal_por_pessoa)
    ∧ ((compute c rec (2 * p) tgt).2.peso_servido_por_pessoa_g
        = (compute c rec p tgt).2.peso_servido_por_pessoa_g)
    ∧ ((compute c rec (2 * p) tgt).2.kcal_por_grama
        = (compute c rec p tgt).2.kcal_por_grama)
    ∧ ((compute c rec (2 * p) tgt).2.kcal_por_200g
        = (compute c rec p tgt).2.kcal_por_200g) := by
  obtain ⟨s, hs⟩ : ∃ s,
      scaleFor tgt (served_total_per_person_g (aggregate c p rec.items)) = s :=
    ⟨_, rfl⟩
  have hsc : scaleFor tgt
      (served_total_per_person_g (aggregate c (2 * p) rec.items))
      = scaleFor tgt (served_total_per_person_g (aggregate c p rec.items)) := by
    rw [aggregate_people c p (2 * p) rec.items, served_total_setPessoas]
  have hrows2 : (compute c rec (2 * p) tgt).1
      = ((aggregate c p rec.items).map (setPessoas (2 * p))).map
          (computeRow c s) := by
    rw [compute_fst, hsc, hs, aggregate_people c p (2 * p) rec.items]
  have hrows1 : (compute c rec p tgt).1
      = (aggregate c p rec.items).map (computeRow c s) := by
    rw [compute_fst, hs]
  have hdouble : ∀ g ∈ aggregate c p rec.items,
      (computeRow c s (setPessoas (2 * p) g)).pl_total
          = 2 * (computeRow c s g).pl_total
      ∧ (computeRow c s (setPessoas (2 * p) g)).pb_total
          = 2 * (computeRow c s g).pb_total
      ∧ (computeRow c s (setPessoas (2 * p) g)).purchase_qty
          = 2 * (computeRow c s g).purchase_qty
      ∧ (computeRow c s (setPessoas (2 * p) g)).custo
          = (computeRow c s g).custo.map (fun x => 2 * x)
      ∧ (computeRow c s (setPessoas (2 * p) g)).peso_final_total
          = 2 * (computeRow c s g).peso_final_total := by
    intro g hg
    have hp := aggregate_pessoas c p rec.items g hg
    have hpl : (computeRow c s (setPessoas (2 * p) g)).pl_total
        = 2 * (computeRow c s g).pl_total := by
      simp only [computeRow_pl_total, setPessoas_pl_pessoa, setPessoas_pessoas,
        hp]
      push_cast
      ring
    have hpb : (computeRow c s (setPessoas (2 * p) g)).pb_total
        = 2 * (computeRow c s g).pb_total := by
      simp only [computeRow_pb_total, computeRow_rl, setPessoas_rl]
      rw [show (computeRow c s (setPessoas (2 * p) g)).pl_total
            = 2 * (computeRow c s g).pl_total from hpl]
      rw [computeRow_pl_total]
      ring
    have hq : (computeRow c s (setPessoas (2 * p) g)).purchase_qty
        = 2 * (computeRow c s g).purchase_qty := by
      rw [computeRow_purchase_qty, computeRow_purchase_qty]
      simp only [setPessoas_unitCompra, setPessoas_un]
      split_ifs
      · rw [hpb]
        ring
      · rw [hpb]
      · rw [hpb]
      · rw [hpb]
    have hcusto : (computeRow c s (setPessoas (2 * p) g)).custo
        = (computeRow c s g).custo.map (fun x => 2 * x) := by
      have hprice : (computeRow c s (setPessoas (2 * p) g)).price
          = (computeRow c s g).price := rfl
      rw [computeRow_custo, computeRow_custo, hprice]
      cases hpr : (computeRow c s g).price with
      | none => simp
      | some pr =>
          rw [hq]
          simp [mul_assoc]
    have hpt : (computeRow c s (setPessoas (2 * p) g)).peso_final_total
        = 2 * (computeRow c s g).peso_final_total := by
      simp only [computeRow_peso_final_total, setPessoas_pl_pessoa,
        setPessoas_pessoas, setPessoas_fc, hp]
      push_cast
      ring
    exact ⟨hpl, hpb, hq, hcusto, hpt⟩
  have hkcal : kcalSum c rec (2 * p) tgt = kcalSum c rec p tgt := by
    simp only [kcalSum, rowsOf]
    rw [hrows2, hrows1]
    simp only [List.filterMap_map]
    rfl
  have hpeso : pesoSum c rec (2 * p) tgt = pesoSum c rec p tgt := by
    simp only [pesoSum, rowsOf]
    rw [hrows2, hrows1]
    simp only [List.filter_map, List.map_map]
    rfl
  refine ⟨?_, ?_, ?_, ?_, ?_, ?_, ?_, ?_, ?_, ?_, ?_, ?_, ?_⟩
  · rw [hrows2, hrows1]
    simp only [List.map_map]
    exact List.map_congr_left fun g hg => (hdouble g hg).1
  · rw [hrows2, hrows1]
    simp only [List.map_map]
    exact List.map_congr_left fun g hg => (hdouble g hg).2.1
  · rw [hrows2, hrows1]
    simp only [List.map_map]
    exact List.map_congr_left fun g hg => (hdouble g hg).2.2.1
  · rw [hrows2, hrows1]
    simp only [List.map_map]
    exact List.map_congr_left fun g hg => (hdouble g hg).2.2.2.1
  · rw [hrows2, hrows1]
    simp only [List.map_map]
    exact List.map_congr_left fun g hg => (hdouble g hg).2.2.2.2
  · rw [compute_snd_eq c rec (2 * p) tgt, compute_snd_eq c rec p tgt, hkcal,
      hpeso]
    by_cases h : 0 < pesoSum c rec p tgt
    · rw [if_pos h, if_pos h]
      show kcalSum c rec p tgt * ((2 * p : ℕ) : ℚ)
          = 2 * (kcalSum c rec p tgt * (p : ℚ))
      push_cast
      ring
    · rw [if_neg h, if_neg h]
      show (0 : ℚ) = 2 * 0
      norm_num
  · rw [hrows2, hrows1]
    simp only [List.map_map]
    rfl
  · rw [hrows2, hrows1]
    simp only [List.map_map]
    rfl
  · rw [hrows2, hrows1]
    simp only [List.map_map]
    rfl
  · rw [compute_kcal, compute_kcal, hkcal]
  · rw [compute_peso, compute_peso, hpeso]
  · rw [compute_snd_eq c rec (2 * p) tgt, compute_snd_eq c rec p tgt, hkcal,
      hpeso]
    by_cases h : 0 < pesoSum c rec p tgt
    · rw [if_pos h, if_pos h]
    · rw [if_neg h, if_neg h]
  · rw [compute_snd_eq c rec (2 * p) tgt, compute_snd_eq c rec p tgt, hkcal,
      hpeso]
    by_cases h : 0 < pesoSum c rec p tgt
    · rw [if_pos h, if_pos h]
    · rw [if_neg h, if_neg h]

end Porpetas
